import Mathlib

/-
Verification of the randomart core (src/lib.rs): the expression tree `Node`
with its evaluator, the weighted grammar, and the generation engine.

Modelling conventions:
* `f32` values are modelled by the domain `F`: either an exact rational
  (`F.num`) or the IEEE not-a-number value (`F.nan`).  Rounding, overflow and
  signed zero of `f32` are abstracted away (exact rational arithmetic); NaN is
  kept because the `Sqrt` arm of `eval` can produce it.
* The transcendental `f32` intrinsics `sin`, `cos`, `exp` and `sqrt` (on
  nonnegative arguments) come from the host's libm and are abstracted as an
  arbitrary parameter pack `FloatOps`; `sqrt` of a negative rational is NaN,
  exactly as for `f32::sqrt`.
* Rust panics (`assert!`, `unreachable!`) are modelled as `Except.error` with
  the panic message; the soft "no value" outcome of `eval` stays `Option`
  inside the `Except`.
-/

namespace Randomart

/-- Value domain for `f32`: an exact rational or NaN. -/
inductive F where
  | num (q : ℚ)
  | nan
deriving DecidableEq

/-- Modelled from the spec: the transcendental `f32` intrinsics (`sin`, `cos`,
`exp`, and `sqrt` on nonnegative inputs) are external to the repository; the
spec pins only that they are deterministic functions, so they are abstracted
as a parameter pack of functions on the rational part of the value domain. -/
structure FloatOps where
  sin : ℚ → ℚ
  cos : ℚ → ℚ
  exp : ℚ → ℚ
  sqrt : ℚ → ℚ

/-- The `1e-6` threshold literal of `src/lib.rs`, as an exact rational. -/
def EPS : ℚ := 1 / 1000000

/-- `f32` addition on the domain `F` (NaN propagates). -/
def fadd : F → F → F
  | F.num a, F.num b => F.num (a + b)
  | _, _ => F.nan

/-- `f32` multiplication on the domain `F` (NaN propagates). -/
def fmul : F → F → F
  | F.num a, F.num b => F.num (a * b)
  | _, _ => F.nan

/-- `f32` division on the domain `F` (NaN propagates).  In `eval` the `Div`
and `Modulo` arms only divide after the `1e-6` magnitude guard, so the
rational division is never division by zero there. -/
def fdiv : F → F → F
  | F.num a, F.num b => F.num (a / b)
  | _, _ => F.nan

/-- Halving, for the `Add` arm's `(lhs + rhs)/2.0`. -/
def fhalf : F → F
  | F.num a => F.num (a / 2)
  | F.nan => F.nan

/-- Truncation toward zero, as in Rust's float remainder. -/
def qtrunc (q : ℚ) : ℤ := if 0 ≤ q then Int.floor q else Int.ceil q

/-- Rust's `%` on floats: `a - b * trunc(a / b)` (sign follows the dividend). -/
def qmod (a b : ℚ) : ℚ := a - b * ((qtrunc (a / b) : ℤ) : ℚ)

/-- `f32` remainder on the domain `F` (NaN propagates). -/
def fmod : F → F → F
  | F.num a, F.num b => F.num (qmod a b)
  | _, _ => F.nan

/-- The divisor guard `rhs_val.abs() > c`: false on NaN, since every IEEE
comparison with NaN is false. -/
def fabsGt (v : F) (c : ℚ) : Bool :=
  match v with
  | F.num q => decide (c < |q|)
  | F.nan => false

/-- The `If` condition test `cond_value > 0.0`: false on NaN. -/
def fposB : F → Bool
  | F.num q => decide (0 < q)
  | F.nan => false

/-- The `Gt` comparison `lhs_val > rhs_val`: false if either side is NaN. -/
def fgtB : F → F → Bool
  | F.num a, F.num b => decide (b < a)
  | _, _ => false

/-- Rust's `f32::max`, which ignores NaN: if one argument is NaN the other
argument is returned. -/
def fmax : F → F → F
  | F.nan, b => b
  | F.num a, F.nan => F.num a
  | F.num a, F.num b => F.num (max a b)

/-- Lift of `ops.sin` to `F` (`f32::sin` of NaN is NaN). -/
def fsin (ops : FloatOps) : F → F
  | F.num q => F.num (ops.sin q)
  | F.nan => F.nan

/-- Lift of `ops.cos` to `F`. -/
def fcos (ops : FloatOps) : F → F
  | F.num q => F.num (ops.cos q)
  | F.nan => F.nan

/-- Lift of `ops.exp` to `F`. -/
def fexp (ops : FloatOps) : F → F
  | F.num q => F.num (ops.exp q)
  | F.nan => F.nan

/-- `f32::sqrt`: NaN on a negative argument (and on NaN), otherwise the
abstracted nonnegative square root. -/
def fsqrt (ops : FloatOps) : F → F
  | F.num q => if q < 0 then F.nan else F.num (ops.sqrt q)
  | F.nan => F.nan

/-- The expression tree of `src/lib.rs` (`enum Node`).  `then` is a Lean
keyword, so the `If` field named `then` in the source is called `thn` here. -/
inductive Node where
  | X
  | Y
  | Random
  | Rule (idx : ℕ)
  | Number (value : ℚ)
  | Boolean (b : Bool)
  | Sqrt (inner : Node)
  | Sin (inner : Node)
  | Cos (inner : Node)
  | Exp (inner : Node)
  | Add (lhs rhs : Node)
  | Mult (lhs rhs : Node)
  | Div (lhs rhs : Node)
  | Modulo (lhs rhs : Node)
  | Gt (lhs rhs : Node)
  | Triple (first second third : Node)
  | If (cond thn elze : Node)
  | Mix (a b c d : Node)
deriving DecidableEq

/-- Panic message of the `Node::Random` arm of `eval`. -/
def randomUnreachableMsg : String :=
  "all Node::Random instances are supposed to be converted into Node::Number during generation"

/-- Panic message of the `Node::Triple` arm of `eval`. -/
def tripleUnreachableMsg : String := "Node::Triple is only for the Entry rule"

/-- Panic message of the catch-all arm of `eval` (it covers exactly
`Node::Boolean` and `Node::Rule`). -/
def evalCatchAllMsg : String := "unexpected Node kind during eval"

/-- Assertion message of `extract_channels_from_triple` on a non-`Triple`
root; the repository's own test calls this failure the invalid-variant
panic. -/
def invalidVariantMsg : String := "expected the generated node to be a Node::Triple"

/-- Assertion message of `gen_rule` on an out-of-range rule index. -/
def invalidRuleMsg : String := "invalid rule index"

/-- Assertion message of `gen_rule` on an empty branch set. -/
def noBranchesMsg : String := "no branches available"

/-- The `?` operator of `eval`: propagate a panic, propagate a soft `None`,
otherwise feed the value to the continuation. -/
def evalBind (r : Except String (Option F)) (k : F → Except String (Option F)) :
    Except String (Option F) :=
  match r with
  | Except.error e => Except.error e
  | Except.ok none => Except.ok none
  | Except.ok (some v) => k v

/-- `Node::eval` of `src/lib.rs` lines 31-107.  Soft failure is
`Except.ok none`; a panic is `Except.error`. -/
def eval (ops : FloatOps) (x y : ℚ) : Node → Except String (Option F)
  | Node.X => Except.ok (some (F.num x))
  | Node.Y => Except.ok (some (F.num y))
  | Node.Number v => Except.ok (some (F.num v))
  | Node.Random => Except.error randomUnreachableMsg
  | Node.Add lhs rhs =>
    evalBind (eval ops x y lhs) fun lv =>
      evalBind (eval ops x y rhs) fun rv =>
        Except.ok (some (fhalf (fadd lv rv)))
  | Node.Mult lhs rhs =>
    evalBind (eval ops x y lhs) fun lv =>
      evalBind (eval ops x y rhs) fun rv =>
        Except.ok (some (fmul lv rv))
  | Node.Sin inner =>
    evalBind (eval ops x y inner) fun v => Except.ok (some (fsin ops v))
  | Node.Cos inner =>
    evalBind (eval ops x y inner) fun v => Except.ok (some (fcos ops v))
  | Node.Exp inner =>
    evalBind (eval ops x y inner) fun v => Except.ok (some (fexp ops v))
  | Node.Sqrt inner =>
    evalBind (eval ops x y inner) fun v =>
      Except.ok (some (fmax (fsqrt ops v) (F.num 0)))
  | Node.Div lhs rhs =>
    evalBind (eval ops x y lhs) fun lv =>
      evalBind (eval ops x y rhs) fun rv =>
        if fabsGt rv EPS then Except.ok (some (fdiv lv rv)) else Except.ok none
  | Node.Mix a b c d =>
    evalBind (eval ops x y a) fun av =>
      evalBind (eval ops x y b) fun bv =>
        evalBind (eval ops x y c) fun cv =>
          evalBind (eval ops x y d) fun dv =>
            Except.ok (some (fdiv (fadd (fmul av cv) (fmul bv dv))
              (fadd (fadd av bv) (F.num EPS))))
  | Node.Triple _ _ _ => Except.error tripleUnreachableMsg
  | Node.If cond thn elze =>
    evalBind (eval ops x y cond) fun cv =>
      if fposB cv then eval ops x y thn else eval ops x y elze
  | Node.Gt lhs rhs =>
    evalBind (eval ops x y lhs) fun lv =>
      evalBind (eval ops x y rhs) fun rv =>
        Except.ok (some (F.num (if fgtB lv rv then 1 else 0)))
  | Node.Modulo lhs rhs =>
    evalBind (eval ops x y lhs) fun lv =>
      evalBind (eval ops x y rhs) fun rv =>
        if fabsGt rv EPS then Except.ok (some (fmod lv rv)) else Except.ok none
  | Node.Boolean _ => Except.error evalCatchAllMsg
  | Node.Rule _ => Except.error evalCatchAllMsg

/-- Modelled from the spec: the colour record (`utils::Colour`) is an external
collaborator, a plain 3-field numeric container with no behaviour. -/
structure Colour where
  r : F
  g : F
  b : F
deriving DecidableEq

/-- `Node::eval_rgb` of `src/lib.rs` lines 109-118: each channel's soft
failure is absorbed to `0.0` (`unwrap_or`), a panic still propagates, and a
non-`Triple` root yields the default colour. -/
def eval_rgb (ops : FloatOps) (n : Node) (x y : ℚ) : Except String Colour :=
  match n with
  | Node.Triple first second third =>
    match eval ops x y first with
    | Except.error e => Except.error e
    | Except.ok rv =>
      match eval ops x y second with
      | Except.error e => Except.error e
      | Except.ok gv =>
        match eval ops x y third with
        | Except.error e => Except.error e
        | Except.ok bv =>
          Except.ok { r := rv.getD (F.num 0), g := gv.getD (F.num 0), b := bv.getD (F.num 0) }
  | _ => Except.ok { r := F.num 0, g := F.num 0, b := F.num 0 }

/-- The derived `Debug` rendering of a `Node` (`format!` with the `{:?}`
specifier).  Numbers are printed through the rational `toString` here: the
shortest-roundtrip decimal formatting of `f32` is host behaviour outside this
repository, and no claim depends on the digits. -/
def fmtNode : Node → String
  | Node.X => "X"
  | Node.Y => "Y"
  | Node.Random => "Random"
  | Node.Rule i => "Rule(" ++ toString i ++ ")"
  | Node.Number v => "Number(" ++ toString v ++ ")"
  | Node.Boolean b => "Boolean(" ++ (if b then "true" else "false") ++ ")"
  | Node.Sqrt i => "Sqrt(" ++ fmtNode i ++ ")"
  | Node.Sin i => "Sin(" ++ fmtNode i ++ ")"
  | Node.Cos i => "Cos(" ++ fmtNode i ++ ")"
  | Node.Exp i => "Exp(" ++ fmtNode i ++ ")"
  | Node.Add l r => "Add(" ++ fmtNode l ++ ", " ++ fmtNode r ++ ")"
  | Node.Mult l r => "Mult(" ++ fmtNode l ++ ", " ++ fmtNode r ++ ")"
  | Node.Div l r => "Div(" ++ fmtNode l ++ ", " ++ fmtNode r ++ ")"
  | Node.Modulo l r => "Modulo(" ++ fmtNode l ++ ", " ++ fmtNode r ++ ")"
  | Node.Gt l r => "Gt(" ++ fmtNode l ++ ", " ++ fmtNode r ++ ")"
  | Node.Triple a b c =>
    "Triple(" ++ fmtNode a ++ ", " ++ fmtNode b ++ ", " ++ fmtNode c ++ ")"
  | Node.If c t e =>
    "If \x7b cond: " ++ fmtNode c ++ ", then: " ++ fmtNode t ++ ", elze: " ++ fmtNode e ++ " \x7d"
  | Node.Mix a b c d =>
    "Mix(" ++ fmtNode a ++ ", " ++ fmtNode b ++ ", " ++ fmtNode c ++ ", " ++ fmtNode d ++ ")"

/-- Whether a node is rooted at `Triple` (the `matches!` test of
`extract_channels_from_triple`). -/
def isTriple : Node → Bool
  | Node.Triple _ _ _ => true
  | _ => false

/-- `Node::extract_channels_from_triple` of `src/lib.rs` lines 120-137: the
assertion panic on a non-`Triple` root, then the match producing the three
channel renderings (its own catch-all is unreachable behind the assert). -/
def extract_channels_from_triple (n : Node) : Except String (String × String × String) :=
  if isTriple n then
    match n with
    | Node.Triple left middle right =>
      Except.ok (fmtNode left, fmtNode middle, fmtNode right)
    | _ =>
      Except.error "assert inside this function would have complained before you came here"
  else Except.error invalidVariantMsg

/-- One weighted alternative of a production rule (`GrammarBranch`); the box
around the template is elided. -/
structure GrammarBranch where
  node : Node
  probability : ℚ
deriving DecidableEq

/-- The ordered alternatives of one production rule (`GrammarBranches`). -/
structure GrammarBranches where
  alternates : List GrammarBranch
deriving DecidableEq

/-- Modelled from the spec: the pseudorandom source
(`utils::LinearCongruentialGenerator`) is an external collaborator exposing
one operation, "next uniform float in [0, 1)", a deterministic transition on
an integer state seeded by an integer; its exact constants are outside the
spec's authority, so the transition is an arbitrary parameter of the
generation functions. -/
def RngStep : Type := ℕ → ℚ × ℕ

/-- The grammar (`struct Grammar`): the ordered rule tables plus the private
pseudorandom state. -/
structure Grammar where
  rules : List GrammarBranches
  rng : ℕ
deriving DecidableEq

/-- Modelled from the spec: constructing a grammar with a seed
(`Grammar::build`); the seed becomes the initial pseudorandom state. -/
def Grammar.build (rules : List GrammarBranches) (seed : ℕ) : Grammar :=
  { rules := rules, rng := seed }

/-- The cumulative-probability walk of `gen_rule` (lines 271-278): running
sum over the alternatives in order, selecting the first whose sum reaches
`p`; `none` when the total mass stays below `p`. -/
def pickBranch : List GrammarBranch → ℚ → ℚ → Option Node
  | [], _, _ => none
  | branch :: rest, cum, p =>
    let c := cum + branch.probability
    if p ≤ c then some branch.node else pickBranch rest c p

/-- The `?` operator of `gen_node`: propagate a panic, propagate a failed
expansion (with the grammar state it left behind), otherwise continue. -/
def gnBind (r : Except String (Option Node × Grammar))
    (k : Node → Grammar → Except String (Option Node × Grammar)) :
    Except String (Option Node × Grammar) :=
  match r with
  | Except.error e => Except.error e
  | Except.ok (none, g) => Except.ok (none, g)
  | Except.ok (some c, g) => k c g

mutual

/-- `Grammar::gen_rule` of `src/lib.rs` lines 257-286: depth 0 fails at once;
an out-of-range rule or an empty branch set is an assertion panic; otherwise
up to 100 sampling attempts.  The mutable `&mut self` of the source becomes
explicit grammar-state passing. -/
def gen_rule (nf : RngStep) (g : Grammar) (rule : ℕ) (depth : ℕ) :
    Except String (Option Node × Grammar) :=
  match depth with
  | 0 => Except.ok (none, g)
  | d + 1 =>
    match g.rules.get? rule with
    | none => Except.error invalidRuleMsg
    | some branches =>
      if branches.alternates.isEmpty then Except.error noBranchesMsg
      else gen_attempts nf g branches d 100
termination_by (depth, 3, 0)

/-- The 100-attempt loop of `gen_rule` (lines 268-283): draw `p`, select a
branch by the cumulative walk, expand it at `depth - 1` (the `d` here);
retry on a failed draw or failed expansion, keeping the pseudorandom state
the failed attempt consumed. -/
def gen_attempts (nf : RngStep) (g : Grammar) (branches : GrammarBranches)
    (d : ℕ) (fuel : ℕ) : Except String (Option Node × Grammar) :=
  match fuel with
  | 0 => Except.ok (none, g)
  | f + 1 =>
    let pr := nf g.rng
    let g1 : Grammar := { rules := g.rules, rng := pr.2 }
    match pickBranch branches.alternates 0 pr.1 with
    | none => gen_attempts nf g1 branches d f
    | some tmpl =>
      match gen_node nf g1 tmpl d with
      | Except.error e => Except.error e
      | Except.ok (some t, g2) => Except.ok (some t, g2)
      | Except.ok (none, g2) => gen_attempts nf g2 branches d f
termination_by (d, 2, fuel)

/-- `Grammar::gen_node` of `src/lib.rs` lines 288-357: terminals are copied
verbatim, operators expand every operand at the same depth short-circuiting
on the first failure, `Rule` consumes one depth unit (`checked_sub`), and
`Random` consumes one draw and materializes as a `Number` in [-1, 1]. -/
def gen_node (nf : RngStep) (g : Grammar) (n : Node) (d : ℕ) :
    Except String (Option Node × Grammar) :=
  match n with
  | Node.X => Except.ok (some Node.X, g)
  | Node.Y => Except.ok (some Node.Y, g)
  | Node.Number v => Except.ok (some (Node.Number v), g)
  | Node.Boolean b => Except.ok (some (Node.Boolean b), g)
  | Node.Sqrt inner =>
    gnBind (gen_node nf g inner d) fun c g1 => Except.ok (some (Node.Sqrt c), g1)
  | Node.Sin inner =>
    gnBind (gen_node nf g inner d) fun c g1 => Except.ok (some (Node.Sin c), g1)
  | Node.Cos inner =>
    gnBind (gen_node nf g inner d) fun c g1 => Except.ok (some (Node.Cos c), g1)
  | Node.Exp inner =>
    gnBind (gen_node nf g inner d) fun c g1 => Except.ok (some (Node.Exp c), g1)
  | Node.Add lhs rhs =>
    gnBind (gen_node nf g lhs d) fun lc g1 =>
      gnBind (gen_node nf g1 rhs d) fun rc g2 =>
        Except.ok (some (Node.Add lc rc), g2)
  | Node.Mult lhs rhs =>
    gnBind (gen_node nf g lhs d) fun lc g1 =>
      gnBind (gen_node nf g1 rhs d) fun rc g2 =>
        Except.ok (some (Node.Mult lc rc), g2)
  | Node.Modulo lhs rhs =>
    gnBind (gen_node nf g lhs d) fun lc g1 =>
      gnBind (gen_node nf g1 rhs d) fun rc g2 =>
        Except.ok (some (Node.Modulo lc rc), g2)
  | Node.Gt lhs rhs =>
    gnBind (gen_node nf g lhs d) fun lc g1 =>
      gnBind (gen_node nf g1 rhs d) fun rc g2 =>
        Except.ok (some (Node.Gt lc rc), g2)
  | Node.Div lhs rhs =>
    gnBind (gen_node nf g lhs d) fun lc g1 =>
      gnBind (gen_node nf g1 rhs d) fun rc g2 =>
        Except.ok (some (Node.Div lc rc), g2)
  | Node.Triple first second third =>
    gnBind (gen_node nf g first d) fun fc g1 =>
      gnBind (gen_node nf g1 second d) fun sc g2 =>
        gnBind (gen_node nf g2 third d) fun tc g3 =>
          Except.ok (some (Node.Triple fc sc tc), g3)
  | Node.If cond thn elze =>
    gnBind (gen_node nf g cond d) fun cc g1 =>
      gnBind (gen_node nf g1 thn d) fun tc g2 =>
        gnBind (gen_node nf g2 elze d) fun ec g3 =>
          Except.ok (some (Node.If cc tc ec), g3)
  | Node.Rule idx =>
    match d with
    | 0 => Except.ok (none, g)
    | m + 1 => gen_rule nf g idx m
  | Node.Random =>
    let pr := nf g.rng
    Except.ok (some (Node.Number (pr.1 * 2 - 1)), { rules := g.rules, rng := pr.2 })
  | Node.Mix a b c d4 =>
    gnBind (gen_node nf g a d) fun ac g1 =>
      gnBind (gen_node nf g1 b d) fun bc g2 =>
        gnBind (gen_node nf g2 c d) fun cc g3 =>
          gnBind (gen_node nf g3 d4 d) fun dc g4 =>
            Except.ok (some (Node.Mix ac bc cc dc), g4)
termination_by (d, 1, sizeOf n)

end

/-- A generated tree is free of the template-only placeholders `Rule` and
`Random`. -/
def noPlaceholders : Node → Bool
  | Node.X => true
  | Node.Y => true
  | Node.Random => false
  | Node.Rule _ => false
  | Node.Number _ => true
  | Node.Boolean _ => true
  | Node.Sqrt i => noPlaceholders i
  | Node.Sin i => noPlaceholders i
  | Node.Cos i => noPlaceholders i
  | Node.Exp i => noPlaceholders i
  | Node.Add l r => noPlaceholders l && noPlaceholders r
  | Node.Mult l r => noPlaceholders l && noPlaceholders r
  | Node.Div l r => noPlaceholders l && noPlaceholders r
  | Node.Modulo l r => noPlaceholders l && noPlaceholders r
  | Node.Gt l r => noPlaceholders l && noPlaceholders r
  | Node.Triple a b c => noPlaceholders a && noPlaceholders b && noPlaceholders c
  | Node.If c t e => noPlaceholders c && noPlaceholders t && noPlaceholders e
  | Node.Mix a b c d => noPlaceholders a && noPlaceholders b && noPlaceholders c && noPlaceholders d

/-- A concrete parameter pack for witnesses: the identity stands in for the
abstracted libm functions. -/
def ops0 : FloatOps :=
  { sin := fun q => q, cos := fun q => q, exp := fun q => q, sqrt := fun q => q }

/-- A concrete pseudorandom transition for witnesses: always draw 0 and step
the state. -/
def nf0 : RngStep := fun s => (0, s + 1)

/-- A one-rule, one-alternative grammar rule table for witnesses. -/
def rules0 : List GrammarBranches :=
  [{ alternates := [{ node := Node.X, probability := 1 }] }]

/-- Inversion of the expansion chain: a successful `gnBind` means the first
expansion succeeded and the continuation produced the final result. -/
theorem gnBind_eq_ok_some {r : Except String (Option Node × Grammar)}
    {k : Node → Grammar → Except String (Option Node × Grammar)} {t : Node} {g' : Grammar}
    (h : gnBind r k = Except.ok (some t, g')) :
    ∃ c g1, r = Except.ok (some c, g1) ∧ k c g1 = Except.ok (some t, g') := by
  cases r with
  | error e => simp [gnBind] at h
  | ok p =>
    obtain ⟨o, gg⟩ := p
    cases o with
    | none => simp [gnBind] at h
    | some c => exact ⟨c, gg, rfl, h⟩

/-- The attempt loop only returns trees produced by `gen_node`, so it
preserves any property `gen_node` guarantees of its successful results. -/
theorem gen_attempts_noPlaceholders (nf : RngStep) (d : ℕ)
    (hn : ∀ g n t g', gen_node nf g n d = Except.ok (some t, g') →
      noPlaceholders t = true) :
    ∀ fuel g branches t g',
      gen_attempts nf g branches d fuel = Except.ok (some t, g') →
      noPlaceholders t = true := by
  intro fuel
  induction fuel with
  | zero =>
    intro g branches t g' h
    simp [gen_attempts] at h
  | succ f ih =>
    intro g branches t g' h
    simp only [gen_attempts] at h
    cases hpb : pickBranch branches.alternates 0 (nf g.rng).1 with
    | none =>
      simp only [hpb] at h
      exact ih _ _ _ _ h
    | some tmpl =>
      simp only [hpb] at h
      cases hgn : gen_node nf { rules := g.rules, rng := (nf g.rng).2 } tmpl d with
      | error e => simp [hgn] at h
      | ok p =>
        obtain ⟨o, g2⟩ := p
        cases o with
        | none =>
          simp only [hgn] at h
          exact ih _ _ _ _ h
        | some t2 =>
          simp only [hgn, Except.ok.injEq, Prod.mk.injEq, Option.some.injEq] at h
          obtain ⟨rfl, rfl⟩ := h
          exact hn _ _ _ _ hgn

/-- Template expansion eliminates every placeholder, assuming the rule-level
expansions at smaller depth budgets do. -/
theorem gen_node_noPlaceholders (nf : RngStep) (d : ℕ)
    (hr : ∀ m, m < d → ∀ g rule t g',
      gen_rule nf g rule m = Except.ok (some t, g') → noPlaceholders t = true) :
    ∀ g n t g', gen_node nf g n d = Except.ok (some t, g') →
      noPlaceholders t = true := by
  intro g n
  induction n generalizing g with
  | X =>
    intro t g' h
    simp only [gen_node, Except.ok.injEq, Prod.mk.injEq, Option.some.injEq] at h
    obtain ⟨rfl, rfl⟩ := h
    rfl
  | Y =>
    intro t g' h
    simp only [gen_node, Except.ok.injEq, Prod.mk.injEq, Option.some.injEq] at h
    obtain ⟨rfl, rfl⟩ := h
    rfl
  | Random =>
    intro t g' h
    simp only [gen_node, Except.ok.injEq, Prod.mk.injEq, Option.some.injEq] at h
    obtain ⟨rfl, rfl⟩ := h
    rfl
  | Rule idx =>
    intro t g' h
    cases d with
    | zero => simp [gen_node] at h
    | succ m =>
      simp only [gen_node] at h
      exact hr m (Nat.lt_succ_self m) g idx t g' h
  | Number v =>
    intro t g' h
    simp only [gen_node, Except.ok.injEq, Prod.mk.injEq, Option.some.injEq] at h
    obtain ⟨rfl, rfl⟩ := h
    rfl
  | Boolean b =>
    intro t g' h
    simp only [gen_node, Except.ok.injEq, Prod.mk.injEq, Option.some.injEq] at h
    obtain ⟨rfl, rfl⟩ := h
    rfl
  | Sqrt inner ih =>
    intro t g' h
    simp only [gen_node] at h
    obtain ⟨c, g1, hc, hk⟩ := gnBind_eq_ok_some h
    simp only [Except.ok.injEq, Prod.mk.injEq, Option.some.injEq] at hk
    obtain ⟨rfl, rfl⟩ := hk
    exact ih g c g1 hc
  | Sin inner ih =>
    intro t g' h
    simp only [gen_node] at h
    obtain ⟨c, g1, hc, hk⟩ := gnBind_eq_ok_some h
    simp only [Except.ok.injEq, Prod.mk.injEq, Option.some.injEq] at hk
    obtain ⟨rfl, rfl⟩ := hk
    exact ih g c g1 hc
  | Cos inner ih =>
    intro t g' h
    simp only [gen_node] at h
    obtain ⟨c, g1, hc, hk⟩ := gnBind_eq_ok_some h
    simp only [Except.ok.injEq, Prod.mk.injEq, Option.some.injEq] at hk
    obtain ⟨rfl, rfl⟩ := hk
    exact ih g c g1 hc
  | Exp inner ih =>
    intro t g' h
    simp only [gen_node] at h
    obtain ⟨c, g1, hc, hk⟩ := gnBind_eq_ok_some h
    simp only [Except.ok.injEq, Prod.mk.injEq, Option.some.injEq] at hk
    obtain ⟨rfl, rfl⟩ := hk
    exact ih g c g1 hc
  | Add lhs rhs ihl ihr =>
    intro t g' h
    simp only [gen_node] at h
    obtain ⟨lc, g1, hl, hk⟩ := gnBind_eq_ok_some h
    obtain ⟨rc, g2, hrr, hk2⟩ := gnBind_eq_ok_some hk
    simp only [Except.ok.injEq, Prod.mk.injEq, Option.some.injEq] at hk2
    obtain ⟨rfl, rfl⟩ := hk2
    simp only [noPlaceholders, Bool.and_eq_true]
    exact ⟨ihl g lc g1 hl, ihr g1 rc g2 hrr⟩
  | Mult lhs rhs ihl ihr =>
    intro t g' h
    simp only [gen_node] at h
    obtain ⟨lc, g1, hl, hk⟩ := gnBind_eq_ok_some h
    obtain ⟨rc, g2, hrr, hk2⟩ := gnBind_eq_ok_some hk
    simp only [Except.ok.injEq, Prod.mk.injEq, Option.some.injEq] at hk2
    obtain ⟨rfl, rfl⟩ := hk2
    simp only [noPlaceholders, Bool.and_eq_true]
    exact ⟨ihl g lc g1 hl, ihr g1 rc g2 hrr⟩
  | Div lhs rhs ihl ihr =>
    intro t g' h
    simp only [gen_node] at h
    obtain ⟨lc, g1, hl, hk⟩ := gnBind_eq_ok_some h
    obtain ⟨rc, g2, hrr, hk2⟩ := gnBind_eq_ok_some hk
    simp only [Except.ok.injEq, Prod.mk.injEq, Option.some.injEq] at hk2
    obtain ⟨rfl, rfl⟩ := hk2
    simp only [noPlaceholders, Bool.and_eq_true]
    exact ⟨ihl g lc g1 hl, ihr g1 rc g2 hrr⟩
  | Modulo lhs rhs ihl ihr =>
    intro t g' h
    simp only [gen_node] at h
    obtain ⟨lc, g1, hl, hk⟩ := gnBind_eq_ok_some h
    obtain ⟨rc, g2, hrr, hk2⟩ := gnBind_eq_ok_some hk
    simp only [Except.ok.injEq, Prod.mk.injEq, Option.some.injEq] at hk2
    obtain ⟨rfl, rfl⟩ := hk2
    simp only [noPlaceholders, Bool.and_eq_true]
    exact ⟨ihl g lc g1 hl, ihr g1 rc g2 hrr⟩
  | Gt lhs rhs ihl ihr =>
    intro t g' h
    simp only [gen_node] at h
    obtain ⟨lc, g1, hl, hk⟩ := gnBind_eq_ok_some h
    obtain ⟨rc, g2, hrr, hk2⟩ := gnBind_eq_ok_some hk
    simp only [Except.ok.injEq, Prod.mk.injEq, Option.some.injEq] at hk2
    obtain ⟨rfl, rfl⟩ := hk2
    simp only [noPlaceholders, Bool.and_eq_true]
    exact ⟨ihl g lc g1 hl, ihr g1 rc g2 hrr⟩
  | Triple f1 f2 f3 ih1 ih2 ih3 =>
    intro t g' h
    simp only [gen_node] at h
    obtain ⟨c1, g1, h1, hk⟩ := gnBind_eq_ok_some h
    obtain ⟨c2, g2, h2, hk2⟩ := gnBind_eq_ok_some hk
    obtain ⟨c3, g3, h3, hk3⟩ := gnBind_eq_ok_some hk2
    simp only [Except.ok.injEq, Prod.mk.injEq, Option.some.injEq] at hk3
    obtain ⟨rfl, rfl⟩ := hk3
    simp only [noPlaceholders, Bool.and_eq_true]
    exact ⟨⟨ih1 g c1 g1 h1, ih2 g1 c2 g2 h2⟩, ih3 g2 c3 g3 h3⟩
  | If cond thn elze ih1 ih2 ih3 =>
    intro t g' h
    simp only [gen_node] at h
    obtain ⟨c1, g1, h1, hk⟩ := gnBind_eq_ok_some h
    obtain ⟨c2, g2, h2, hk2⟩ := gnBind_eq_ok_some hk
    obtain ⟨c3, g3, h3, hk3⟩ := gnBind_eq_ok_some hk2
    simp only [Except.ok.injEq, Prod.mk.injEq, Option.some.injEq] at hk3
    obtain ⟨rfl, rfl⟩ := hk3
    simp only [noPlaceholders, Bool.and_eq_true]
    exact ⟨⟨ih1 g c1 g1 h1, ih2 g1 c2 g2 h2⟩, ih3 g2 c3 g3 h3⟩
  | Mix a b c d4 ih1 ih2 ih3 ih4 =>
    intro t g' h
    simp only [gen_node] at h
    obtain ⟨c1, g1, h1, hk⟩ := gnBind_eq_ok_some h
    obtain ⟨c2, g2, h2, hk2⟩ := gnBind_eq_ok_some hk
    obtain ⟨c3, g3, h3, hk3⟩ := gnBind_eq_ok_some hk2
    obtain ⟨c4, g4, h4, hk4⟩ := gnBind_eq_ok_some hk3
    simp only [Except.ok.injEq, Prod.mk.injEq, Option.some.injEq] at hk4
    obtain ⟨rfl, rfl⟩ := hk4
    simp only [noPlaceholders, Bool.and_eq_true]
    exact ⟨⟨⟨ih1 g c1 g1 h1, ih2 g1 c2 g2 h2⟩, ih3 g2 c3 g3 h3⟩, ih4 g3 c4 g4 h4⟩

/-- Any tree `gen_rule` returns is free of `Rule` and `Random` placeholders,
by strong induction on the depth budget. -/
theorem gen_rule_noPlaceholders (nf : RngStep) :
    ∀ d g rule t g', gen_rule nf g rule d = Except.ok (some t, g') →
      noPlaceholders t = true := by
  intro d
  induction d using Nat.strong_induction_on with
  | _ d ih =>
    cases d with
    | zero =>
      intro g rule t g' h
      simp [gen_rule] at h
    | succ k =>
      intro g rule t g' h
      simp only [gen_rule] at h
      split at h
      next => simp at h
      next branches heq =>
        split at h
        next => simp at h
        next =>
          exact gen_attempts_noPlaceholders nf k
            (gen_node_noPlaceholders nf k fun m hm => ih m (Nat.lt_succ_of_lt hm))
            100 g branches t g' h

/-- C1: Determinism of generation: two Grammar instances with the same rule
table and the same pseudorandom state (hence two fresh instances built from
the same rule table and seed) give identical `gen_rule` results for the same
rule index and depth budget — the drawn pseudorandom sequence and the result
tree are a pure function of these inputs, so the outcomes are both `none` or
both `some` of equal trees. -/
theorem genRuleDeterministic (nf : RngStep) (g1 g2 : Grammar) (rule d : ℕ)
    (hrules : g1.rules = g2.rules) (hrng : g1.rng = g2.rng) :
    gen_rule nf g1 rule d = gen_rule nf g2 rule d := by
  obtain ⟨r1, s1⟩ := g1
  obtain ⟨r2, s2⟩ := g2
  obtain rfl : r1 = r2 := hrules
  obtain rfl : s1 = s2 := hrng
  rfl

/-- Witness for C1: two separately constructed grammars over the same rule
table and seed generate identically. -/
theorem genRuleDeterministicWitness :
    gen_rule nf0 (Grammar.build rules0 5) 0 40 =
      gen_rule nf0 { rules := rules0, rng := 5 } 0 40 :=
  genRuleDeterministic nf0 (Grammar.build rules0 5) { rules := rules0, rng := 5 }
    0 40 rfl rfl

/-- C2: With depth budget 0, `gen_rule` returns no tree and leaves the whole
grammar state (rule table and pseudorandom state) unchanged, for every rule
index including out-of-range ones: it returns before the bounds assertion is
reached and consumes zero pseudorandom draws. -/
theorem genRuleDepthZeroNoop (nf : RngStep) (g : Grammar) (rule : ℕ) :
    gen_rule nf g rule 0 = Except.ok (none, g) := by
  simp [gen_rule]

/-- C3 counterexample: a failing child does not always fail the parent.  The
`elze` child of this `If` node fails at (0, 0), yet the node evaluates to a
value, because `cond` is positive and only the `then` branch is evaluated. -/
theorem evalIfUnevaluatedChildCounterexample :
    eval ops0 0 0 (Node.Div Node.X (Node.Number 0)) = Except.ok none ∧
    eval ops0 0 0 (Node.If (Node.Number 1) Node.X (Node.Div Node.X (Node.Number 0))) =
      Except.ok (some (F.num 0)) := by
  constructor
  · norm_num [eval, evalBind, fabsGt, EPS]
  · norm_num [eval, evalBind, fabsGt, fposB, EPS]

/-- C3 (amended): a soft failure of a child that `eval` actually evaluates
fails the parent, for every operator and coordinate pair, following each
operator's left-to-right short-circuit order; `If` evaluates only `cond` and
the selected branch, so a failure of the unselected branch does not
propagate. -/
theorem evalChildFailurePropagation (ops : FloatOps) (x y : ℚ) :
    (∀ l r, eval ops x y l = Except.ok none →
      eval ops x y (Node.Add l r) = Except.ok none) ∧
    (∀ l r v, eval ops x y l = Except.ok (some v) → eval ops x y r = Except.ok none →
      eval ops x y (Node.Add l r) = Except.ok none) ∧
    (∀ l r, eval ops x y l = Except.ok none →
      eval ops x y (Node.Mult l r) = Except.ok none) ∧
    (∀ l r v, eval ops x y l = Except.ok (some v) → eval ops x y r = Except.ok none →
      eval ops x y (Node.Mult l r) = Except.ok none) ∧
    (∀ l r, eval ops x y l = Except.ok none →
      eval ops x y (Node.Div l r) = Except.ok none) ∧
    (∀ l r v, eval ops x y l = Except.ok (some v) → eval ops x y r = Except.ok none →
      eval ops x y (Node.Div l r) = Except.ok none) ∧
    (∀ l r, eval ops x y l = Except.ok none →
      eval ops x y (Node.Modulo l r) = Except.ok none) ∧
    (∀ l r v, eval ops x y l = Except.ok (some v) → eval ops x y r = Except.ok none →
      eval ops x y (Node.Modulo l r) = Except.ok none) ∧
    (∀ l r, eval ops x y l = Except.ok none →
      eval ops x y (Node.Gt l r) = Except.ok none) ∧
    (∀ l r v, eval ops x y l = Except.ok (some v) → eval ops x y r = Except.ok none →
      eval ops x y (Node.Gt l r) = Except.ok none) ∧
    (∀ i, eval ops x y i = Except.ok none →
      eval ops x y (Node.Sqrt i) = Except.ok none) ∧
    (∀ i, eval ops x y i = Except.ok none →
      eval ops x y (Node.Sin i) = Except.ok none) ∧
    (∀ i, eval ops x y i = Except.ok none →
      eval ops x y (Node.Cos i) = Except.ok none) ∧
    (∀ i, eval ops x y i = Except.ok none →
      eval ops x y (Node.Exp i) = Except.ok none) ∧
    (∀ a b c d, eval ops x y a = Except.ok none →
      eval ops x y (Node.Mix a b c d) = Except.ok none) ∧
    (∀ a b c d va, eval ops x y a = Except.ok (some va) → eval ops x y b = Except.ok none →
      eval ops x y (Node.Mix a b c d) = Except.ok none) ∧
    (∀ a b c d va vb, eval ops x y a = Except.ok (some va) →
      eval ops x y b = Except.ok (some vb) → eval ops x y c = Except.ok none →
      eval ops x y (Node.Mix a b c d) = Except.ok none) ∧
    (∀ a b c d va vb vc, eval ops x y a = Except.ok (some va) →
      eval ops x y b = Except.ok (some vb) → eval ops x y c = Except.ok (some vc) →
      eval ops x y d = Except.ok none →
      eval ops x y (Node.Mix a b c d) = Except.ok none) ∧
    (∀ c t e, eval ops x y c = Except.ok none →
      eval ops x y (Node.If c t e) = Except.ok none) ∧
    (∀ c t e v, eval ops x y c = Except.ok (some v) → fposB v = true →
      eval ops x y t = Except.ok none →
      eval ops x y (Node.If c t e) = Except.ok none) ∧
    (∀ c t e v, eval ops x y c = Except.ok (some v) → fposB v = false →
      eval ops x y e = Except.ok none →
      eval ops x y (Node.If c t e) = Except.ok none) := by
  refine ⟨?_, ?_, ?_, ?_, ?_, ?_, ?_, ?_, ?_, ?_, ?_, ?_, ?_, ?_, ?_, ?_, ?_, ?_,
    ?_, ?_, ?_⟩ <;>
  · intros
    simp_all [eval, evalBind]

/-- Witness for C3 (amended): a failing left operand of `Add` fails the node. -/
theorem evalChildFailurePropagationWitness :
    eval ops0 1 2 (Node.Add (Node.Div Node.X (Node.Number 0)) Node.Y) = Except.ok none :=
  (evalChildFailurePropagation ops0 1 2).1 (Node.Div Node.X (Node.Number 0)) Node.Y
    (by norm_num [eval, evalBind, fabsGt, EPS])

/-- C4 counterexample: for a negative operand, `Sqrt` does not evaluate to an
unrepaired NaN: the square root produces NaN, but `f32::max` ignores NaN and
returns the other argument, so the clamp yields exactly 0.0. -/
theorem sqrtNegativeRepairedCounterexample :
    eval ops0 0 0 (Node.Sqrt (Node.Number (-1))) = Except.ok (some (F.num 0)) ∧
    (Except.ok (some (F.num 0)) : Except String (Option F)) ≠
      Except.ok (some F.nan) := by
  constructor
  · norm_num [eval, evalBind, ops0, fsqrt, fmax]
  · simp

/-- C4 (amended): `Sqrt` computes the square root of the child's value and
then clamps the result (clamp after the root, not before); for a negative
child value the NaN intermediate is repaired by the clamp, because `f32::max`
returns the non-NaN argument, so the result is 0.0 rather than NaN. -/
theorem sqrtClampAfterRoot (ops : FloatOps) (x y : ℚ) (n : Node) (v : F)
    (h : eval ops x y n = Except.ok (some v)) :
    eval ops x y (Node.Sqrt n) = Except.ok (some (fmax (fsqrt ops v) (F.num 0))) ∧
    (∀ q : ℚ, v = F.num q → q < 0 →
      eval ops x y (Node.Sqrt n) = Except.ok (some (F.num 0))) := by
  constructor
  · simp [eval, h, evalBind]
  · intro q hq hneg
    subst hq
    simp [eval, h, evalBind, fsqrt, hneg, fmax]

/-- Witness for C4 (amended) at the operand -4. -/
theorem sqrtClampAfterRootWitness :
    eval ops0 0 0 (Node.Sqrt (Node.Number (-4))) = Except.ok (some (F.num 0)) :=
  (sqrtClampAfterRoot ops0 0 0 (Node.Number (-4)) (F.num (-4)) rfl).2 (-4) rfl
    (by norm_num)

/-- C5: for `Div` and `Modulo` nodes whose children both evaluate
successfully, evaluation fails exactly when the divisor's magnitude is at or
below the 1e-6 threshold, and above the threshold it succeeds with exactly
the quotient respectively the remainder of the children's values. -/
theorem divModThreshold (ops : FloatOps) (x y : ℚ) (l r : Node) (lv : F) (q : ℚ)
    (hl : eval ops x y l = Except.ok (some lv))
    (hr : eval ops x y r = Except.ok (some (F.num q))) :
    (eval ops x y (Node.Div l r) = Except.ok none ↔ |q| ≤ EPS) ∧
    (EPS < |q| →
      eval ops x y (Node.Div l r) = Except.ok (some (fdiv lv (F.num q)))) ∧
    (eval ops x y (Node.Modulo l r) = Except.ok none ↔ |q| ≤ EPS) ∧
    (EPS < |q| →
      eval ops x y (Node.Modulo l r) = Except.ok (some (fmod lv (F.num q)))) := by
  have hd : eval ops x y (Node.Div l r) =
      if EPS < |q| then Except.ok (some (fdiv lv (F.num q))) else Except.ok none := by
    simp [eval, hl, hr, evalBind, fabsGt]
  have hm : eval ops x y (Node.Modulo l r) =
      if EPS < |q| then Except.ok (some (fmod lv (F.num q))) else Except.ok none := by
    simp [eval, hl, hr, evalBind, fabsGt]
  refine ⟨?_, ?_, ?_, ?_⟩
  · rw [hd]
    by_cases hq : EPS < |q|
    · simp [hq, not_le.mpr hq]
    · simp [hq, not_lt.mp hq]
  · intro hq
    rw [hd, if_pos hq]
  · rw [hm]
    by_cases hq : EPS < |q|
    · simp [hq, not_le.mpr hq]
    · simp [hq, not_lt.mp hq]
  · intro hq
    rw [hm, if_pos hq]

/-- Witness for C5: dividing 1 by 2 succeeds with the exact quotient. -/
theorem divModThresholdWitness :
    eval ops0 0 0 (Node.Div (Node.Number 1) (Node.Number 2)) =
      Except.ok (some (F.num (1 / 2))) := by
  have h := (divModThreshold ops0 0 0 (Node.Number 1) (Node.Number 2)
    (F.num 1) 2 rfl rfl).2.1 (by norm_num [EPS])
  rw [h]
  norm_num [fdiv]

/-- C6: `Add` evaluates to the average of its children's values, not their
sum (the average differs from the sum whenever the sum is nonzero). -/
theorem addIsAverage (ops : FloatOps) (x y : ℚ) (l r : Node) (lv rv : F)
    (hl : eval ops x y l = Except.ok (some lv))
    (hr : eval ops x y r = Except.ok (some rv)) :
    eval ops x y (Node.Add l r) = Except.ok (some (fhalf (fadd lv rv))) ∧
    (∀ a b : ℚ, a + b ≠ 0 →
      fhalf (fadd (F.num a) (F.num b)) ≠ fadd (F.num a) (F.num b)) := by
  constructor
  · simp [eval, hl, hr, evalBind]
  · intro a b hab
    simp only [fadd, fhalf, ne_eq, F.num.injEq]
    intro h
    apply hab
    linarith

/-- Witness for C6: `Add(1, 1)` evaluates to 1, the average, not 2. -/
theorem addIsAverageWitness :
    eval ops0 0 0 (Node.Add (Node.Number 1) (Node.Number 1)) =
      Except.ok (some (F.num 1)) := by
  have h := (addIsAverage ops0 0 0 (Node.Number 1) (Node.Number 1)
    (F.num 1) (F.num 1) rfl rfl).1
  rw [h]
  norm_num [fadd, fhalf]

/-- C7: every tree generation returns is free of `Rule` and `Random`
placeholders: each `Random` template became a `Number` leaf and each `Rule`
template was replaced by its recursive expansion. -/
theorem genRuleNoPlaceholders (nf : RngStep) (g : Grammar) (rule d : ℕ)
    (t : Node) (g' : Grammar)
    (h : gen_rule nf g rule d = Except.ok (some t, g')) :
    noPlaceholders t = true :=
  gen_rule_noPlaceholders nf d g rule t g' h

/-- Witness for C7: a concrete one-rule grammar generates the tree `X`, which
is placeholder-free. -/
theorem genRuleNoPlaceholdersWitness : noPlaceholders Node.X = true :=
  genRuleNoPlaceholders nf0 (Grammar.build rules0 5) 0 1 Node.X
    { rules := rules0, rng := 6 }
    (by norm_num [gen_rule, gen_attempts, gen_node, pickBranch, nf0, rules0,
      Grammar.build])

/-- C8: per-channel fail-soft of `eval_rgb`: on a `Triple` root with exactly
one failing channel, that channel becomes exactly 0.0 while the other two
carry their independently computed values; on a non-`Triple` root the result
is the default colour (0, 0, 0) regardless of coordinates. -/
theorem evalRgbFailSoft (ops : FloatOps) (x y : ℚ) :
    (∀ f s t gv bv, eval ops x y f = Except.ok none →
      eval ops x y s = Except.ok (some gv) → eval ops x y t = Except.ok (some bv) →
      eval_rgb ops (Node.Triple f s t) x y =
        Except.ok { r := F.num 0, g := gv, b := bv }) ∧
    (∀ f s t rv bv, eval ops x y f = Except.ok (some rv) →
      eval ops x y s = Except.ok none → eval ops x y t = Except.ok (some bv) →
      eval_rgb ops (Node.Triple f s t) x y =
        Except.ok { r := rv, g := F.num 0, b := bv }) ∧
    (∀ f s t rv gv, eval ops x y f = Except.ok (some rv) →
      eval ops x y s = Except.ok (some gv) → eval ops x y t = Except.ok none →
      eval_rgb ops (Node.Triple f s t) x y =
        Except.ok { r := rv, g := gv, b := F.num 0 }) ∧
    (∀ n, isTriple n = false →
      eval_rgb ops n x y = Except.ok { r := F.num 0, g := F.num 0, b := F.num 0 }) := by
  refine ⟨?_, ?_, ?_, ?_⟩
  · intro f s t gv bv hf hs ht
    simp [eval_rgb, hf, hs, ht]
  · intro f s t rv bv hf hs ht
    simp [eval_rgb, hf, hs, ht]
  · intro f s t rv gv hf hs ht
    simp [eval_rgb, hf, hs, ht]
  · intro n h
    cases n <;> simp_all [eval_rgb, isTriple]

/-- Witness for C8: the middle channel fails and becomes 0 while the outer
channels keep their values, and a bare `X` root gives the default colour. -/
theorem evalRgbFailSoftWitness :
    eval_rgb ops0 (Node.Triple Node.X (Node.Div Node.X (Node.Number 0)) Node.Y) 1 2 =
      Except.ok { r := F.num 1, g := F.num 0, b := F.num 2 } :=
  (evalRgbFailSoft ops0 1 2).2.1 Node.X (Node.Div Node.X (Node.Number 0)) Node.Y
    (F.num 1) (F.num 2) rfl (by norm_num [eval, evalBind, fabsGt, EPS]) rfl

/-- C9: `extract_channels_from_triple` on any non-`Triple` root raises the
fatal invalid-variant assertion (the contract-violation error the spec and
the repository's test call "InvalidVariant"), never a soft failure value; on
a `Triple` root it returns the three channel renderings without error. -/
theorem extractChannelsContract :
    (∀ n : Node, isTriple n = false →
      extract_channels_from_triple n = Except.error invalidVariantMsg) ∧
    (∀ a b c : Node,
      extract_channels_from_triple (Node.Triple a b c) =
        Except.ok (fmtNode a, fmtNode b, fmtNode c)) := by
  constructor
  · intro n h
    simp [extract_channels_from_triple, h]
  · intro a b c
    simp [extract_channels_from_triple, isTriple]

/-- Witness for C9: a bare coordinate reference is rejected fatally. -/
theorem extractChannelsContractWitness :
    extract_channels_from_triple Node.X = Except.error invalidVariantMsg :=
  extractChannelsContract.1 Node.X rfl

/-- C10: evaluating `Boolean(b)` hits the catch-all arm of `eval` and raises
a fatal error (neither a value nor a soft no-value failure), while template
expansion copies a `Boolean` terminal verbatim into generated trees at every
depth, so a grammar whose templates contain `Boolean` produces trees on which
scalar evaluation aborts — including through a `Triple` channel, where
`eval_rgb` aborts too. -/
theorem booleanEvalFatal (ops : FloatOps) (x y : ℚ) (b : Bool) (nf : RngStep)
    (g : Grammar) (d : ℕ) (c2 c3 : Node) :
    eval ops x y (Node.Boolean b) = Except.error evalCatchAllMsg ∧
    gen_node nf g (Node.Boolean b) d = Except.ok (some (Node.Boolean b), g) ∧
    eval_rgb ops (Node.Triple (Node.Boolean b) c2 c3) x y =
      Except.error evalCatchAllMsg := by
  refine ⟨rfl, by simp [gen_node], ?_⟩
  simp [eval_rgb, eval]

end Randomart
